import Mathlib

/-!
Verification of the AI Dungeon state-transition engine (src/main.py).

The engine core consists of apply_state_changes (lines 86-149),
check_end_conditions (lines 152-170) and the per-turn orchestration in
main (lines 265-284).  This file gives a shallow embedding of those
functions and proves or refutes the specified properties.

Modelling conventions:
  * A Python scalar that may appear in an atom field or a state field is
    a PyVal (a string, an integer, or None).  Python int() coercion is
    pyInt, which fails (as Python raises ValueError or TypeError) on a
    non-integer string or on None.
  * The state dict of the source always carries the five fields of the
    data model (location, hp, inventory, flags, turns); flags is modelled
    by its key list (the source only ever stores True and only tests key
    membership), inventory by a list of PyVal.
  * Raised exceptions are modelled with Except: an Except.error result of
    apply_state_changes means the Python call raised.
  * The source does new_state = state.copy(), a SHALLOW copy, so the
    inventory list and flags dict inside new_state are the same objects
    as in the caller state and are mutated in place, while assignments
    to top-level keys of new_state (location, hp) do not touch the
    caller state.  apply_state_changes therefore returns a PAIR: the
    first component is the caller state as it stands after the call
    (its aliased sub-collections mutated), the second is the returned
    new_state.
-/

/-- A Python scalar value as it occurs in atom fields and state fields:
None, an integer, or a string. -/
inductive PyVal where
  | vNone : PyVal
  | vInt (n : Int) : PyVal
  | vStr (s : String) : PyVal
deriving DecidableEq

/-- One element of the state_change list: either not a dict at all
(rejected by the isinstance check at line 102), or a dict of fields. -/
inductive Change where
  | other : Change
  | dict (fields : List (String × PyVal)) : Change
deriving DecidableEq

/-- The changes argument of apply_state_changes: either not a Python
list at all (line 89), or a list of elements. -/
inductive Changes where
  | notList : Changes
  | list (items : List Change) : Changes
deriving DecidableEq

/-- Python dict.get(k): the value stored under k, or None when absent. -/
def dictGet (d : List (String × PyVal)) (k : String) : PyVal :=
  match d with
  | [] => PyVal.vNone
  | (key, v) :: rest => if key = k then v else dictGet rest k

/-- Python dict.get(k, dflt): the value stored under k, or dflt when absent. -/
def dictGetD (d : List (String × PyVal)) (k : String) (dflt : PyVal) : PyVal :=
  match d with
  | [] => dflt
  | (key, v) :: rest => if key = k then v else dictGetD rest k dflt

/-- The numeric value of a decimal digit character, none otherwise. -/
def digitVal (c : Char) : Option Nat :=
  if c = '0' then some 0 else if c = '1' then some 1 else if c = '2' then some 2
  else if c = '3' then some 3 else if c = '4' then some 4 else if c = '5' then some 5
  else if c = '6' then some 6 else if c = '7' then some 7 else if c = '8' then some 8
  else if c = '9' then some 9 else none

/-- Accumulating decimal read of a character list; none on the first
non-digit character. -/
def digitsToNatAux (acc : Nat) : List Char → Option Nat
  | [] => some acc
  | c :: cs =>
    match digitVal c with
    | some d => digitsToNatAux (acc * 10 + d) cs
    | none => none

/-- A non-empty all-digit character list as a number. -/
def digitsToNat : List Char → Option Nat
  | [] => none
  | cs => digitsToNatAux 0 cs

/-- The integer denoted by a string: an optional leading minus sign
followed by at least one decimal digit.  This models the Python int()
string grammar (exact on the inputs considered here; the full grammar
also strips whitespace and accepts a plus sign and underscores). -/
def strToInt (s : String) : Option Int :=
  match s.data with
  | [] => none
  | c :: rest =>
    if c = Char.ofNat 45 then (digitsToNat rest).map (fun n => -(n : Int))
    else (digitsToNat (c :: rest)).map (fun n => (n : Int))

/-- Python int(v) on a PyVal: an integer is returned as is, an
integer-formatted string is parsed, any other string raises ValueError
and None raises TypeError (line 136 of the source). -/
def pyInt : PyVal → Except String Int
  | PyVal.vInt n => Except.ok n
  | PyVal.vStr s =>
    match strToInt s with
    | some n => Except.ok n
    | none => Except.error "ValueError: invalid literal for int"
  | PyVal.vNone => Except.error "TypeError: int argument is None"

/-- The END_CONDITIONS record of rules.json. -/
structure EndConditions where
  MAX_TURNS : Int
  LOSE_ANY_FLAGS : List String
  WIN_ALL_FLAGS : List String
deriving DecidableEq

/-- The immutable rule set (rules.json): LOCKS maps a location id to the
flag required to enter it, INVENTORY_LIMIT caps the inventory length,
END_CONDITIONS drives check_end_conditions. -/
structure Rules where
  LOCKS : List (String × String)
  INVENTORY_LIMIT : Nat
  END_CONDITIONS : EndConditions
deriving DecidableEq

/-- The game state dict with the five fields of the data model.  flags
is modelled by its list of present keys (the source stores only True and
tests only key membership). -/
structure GameState where
  location : PyVal
  hp : Int
  inventory : List PyVal
  flags : List PyVal
  turns : Int
deriving DecidableEq

/-- Python flags[k] = True on a key-list model of the dict: append the
key when absent, keep the list unchanged when present. -/
def setFlagKey (flags : List PyVal) (k : PyVal) : List PyVal :=
  if k ∈ flags then flags else flags ++ [k]

/-- Python list.remove(x): drop the first occurrence of x. -/
def removeFirst (inv : List PyVal) (x : PyVal) : List PyVal :=
  match inv with
  | [] => []
  | y :: ys => if y = x then ys else y :: removeFirst ys x

/-- Lookup in a string-to-string Python dict (the LOCKS table). -/
def strLookup (d : List (String × String)) (k : String) : Option String :=
  match d with
  | [] => none
  | (key, v) :: rest => if key = k then some v else strLookup rest k

/-- The combined test target in rules times LOCKS and access
rules times LOCKS of target (lines 111-112): a non-string target is never a
key of the string-keyed LOCKS dict. -/
def lockLookup (locks : List (String × String)) (target : PyVal) : Option String :=
  match target with
  | PyVal.vStr s => strLookup locks s
  | _ => none

/-- The move_to branch (lines 108-116): a locked target without the
required flag leaves the state unchanged, otherwise location is set to
the target (even when the target field was absent, i.e. None). -/
def moveStep (r : Rules) (st : GameState) (target : PyVal) : GameState :=
  match lockLookup r.LOCKS target with
  | some requiredFlag =>
    if PyVal.vStr requiredFlag ∈ st.flags then { st with location := target }
    else st
  | none => { st with location := target }

/-- The add_item branch (lines 118-124): skipped when the inventory is
full, no duplicate is ever appended. -/
def addStep (r : Rules) (st : GameState) (item : PyVal) : GameState :=
  if st.inventory.length ≥ r.INVENTORY_LIMIT then st
  else if item ∈ st.inventory then st
  else { st with inventory := st.inventory ++ [item] }

/-- The remove_item branch (lines 126-129). -/
def removeStep (st : GameState) (item : PyVal) : GameState :=
  if item ∈ st.inventory then { st with inventory := removeFirst st.inventory item }
  else st

/-- The set_flag branch (lines 131-133): note the flag field is stored
even when absent from the atom (the None key is then set). -/
def setFlagStep (st : GameState) (flag : PyVal) : GameState :=
  { st with flags := setFlagKey st.flags flag }

/-- The hp_delta branch after coercion (lines 137-141): add the delta,
clamp at 0 and set the hp_zero flag when the sum is at most 0. -/
def hpStep (st : GameState) (delta : Int) : GameState :=
  let hp2 := st.hp + delta
  if hp2 ≤ 0 then { st with hp := 0, flags := setFlagKey st.flags (PyVal.vStr "hp_zero") }
  else { st with hp := hp2 }

/-- One iteration of the loop body of apply_state_changes
(lines 100-144), dispatching on the atom tag exactly as the source
if-elif chain does.  Only the hp_delta branch can raise (int coercion at
line 136). -/
def applyChange (r : Rules) (st : GameState) (c : Change) : Except String GameState :=
  match c with
  | Change.other => Except.ok st
  | Change.dict fields =>
    let atom := dictGet fields "atom"
    if atom = PyVal.vStr "move_to" then
      Except.ok (moveStep r st (dictGet fields "target"))
    else if atom = PyVal.vStr "add_item" then
      Except.ok (addStep r st (dictGet fields "item"))
    else if atom = PyVal.vStr "remove_item" then
      Except.ok (removeStep st (dictGet fields "item"))
    else if atom = PyVal.vStr "set_flag" then
      Except.ok (setFlagStep st (dictGet fields "flag"))
    else if atom = PyVal.vStr "hp_delta" then
      match pyInt (dictGetD fields "delta" (PyVal.vInt 0)) with
      | Except.error e => Except.error e
      | Except.ok delta => Except.ok (hpStep st delta)
    else
      Except.ok st

/-- The whole for-loop of apply_state_changes: changes applied strictly
in order, an exception aborting the rest. -/
def applyChangesList (rules : Rules) : GameState → List Change → Except String GameState
  | st, [] => Except.ok st
  | st, c :: cs =>
    match applyChange rules st c with
    | Except.error e => Except.error e
    | Except.ok st2 => applyChangesList rules st2 cs

/-- apply_state_changes (lines 86-149).  The result pair is
(caller state after the call, returned new_state): the source builds
new_state from a shallow state.copy(), so the inventory and flags
sub-collections stay aliased with the caller state and their mutations
are visible there, while location and hp assignments touch only
new_state. -/
def apply_state_changes (state : GameState) (changes : Changes) (rules : Rules) :
    Except String (GameState × GameState) :=
  match changes with
  | Changes.notList => Except.ok (state, state)
  | Changes.list [] => Except.ok (state, state)
  | Changes.list items =>
    match applyChangesList rules state items with
    | Except.error e => Except.error e
    | Except.ok st2 =>
      Except.ok ({ state with inventory := st2.inventory, flags := st2.flags }, st2)

/-- The outcome of check_end_conditions: the ("lose", msg) or
("win", msg) pairs, or the (None, None) of an ongoing game. -/
inductive GameResult where
  | lose (msg : String)
  | win (msg : String)
  | ongoing
deriving DecidableEq

/-- The for-loop over LOSE_ANY_FLAGS (lines 161-163): the first rule
flag present in the state flags, if any. -/
def findLoseFlag (flags : List PyVal) : List String → Option String
  | [] => none
  | f :: fs => if PyVal.vStr f ∈ flags then some f else findLoseFlag flags fs

/-- check_end_conditions (lines 152-170): turn-limit loss first, then
any-lose-flag loss, then all-win-flags win, else ongoing. -/
def check_end_conditions (state : GameState) (rules : Rules) : GameResult :=
  let er := rules.END_CONDITIONS
  if state.turns ≥ er.MAX_TURNS then
    GameResult.lose ("You ran out of time! (" ++ toString er.MAX_TURNS ++ " turns)")
  else
    match findLoseFlag state.flags er.LOSE_ANY_FLAGS with
    | some f => GameResult.lose ("You have met a losing condition: " ++ f ++ "!")
    | none =>
      if er.WIN_ALL_FLAGS.all (fun f => decide (PyVal.vStr f ∈ state.flags)) then
        GameResult.win "You have won the game! Congratulations!"
      else GameResult.ongoing

/-- The result of call_ollama as seen by main: None on any failure
(lines 77-83), otherwise the parsed response dict, of which the turn
body reads narration and state_change (with default empty list). -/
inductive LLMResult where
  | failure : LLMResult
  | success (narration : Option String) (state_change : Option Changes) : LLMResult

/-- The per-turn state evolution of main (lines 265-284): the turn
counter is incremented before the backend call; then the source reads
llm_response.get("narration", ...) WITHOUT checking for None, so a
failed backend call raises AttributeError; otherwise the engine result
new_state replaces the loop state. -/
def main_turn (state : GameState) (resp : LLMResult) (rules : Rules) :
    Except String GameState :=
  let st1 : GameState := { state with turns := state.turns + 1 }
  match resp with
  | LLMResult.failure =>
    Except.error "AttributeError: NoneType object has no attribute get"
  | LLMResult.success _ sc =>
    let changes := sc.getD (Changes.list [])
    match apply_state_changes st1 changes rules with
    | Except.error e => Except.error e
    | Except.ok p => Except.ok p.2

/-- A small start state matching the scenario of the spec. -/
def state0 : GameState :=
  { location := PyVal.vStr "start", hp := 10, inventory := [], flags := [], turns := 0 }

/-- The scenario rule set of the spec: limit 1, the cave locked behind
has_torch. -/
def rules0 : Rules :=
  { LOCKS := [("cave", "has_torch")], INVENTORY_LIMIT := 1,
    END_CONDITIONS :=
      { MAX_TURNS := 20, LOSE_ANY_FLAGS := ["hp_zero"], WIN_ALL_FLAGS := ["quest_done"] } }

/-- A rule set with a roomier inventory limit. -/
def rules5 : Rules :=
  { LOCKS := [("cave", "has_torch")], INVENTORY_LIMIT := 5,
    END_CONDITIONS :=
      { MAX_TURNS := 20, LOSE_ANY_FLAGS := ["hp_zero"], WIN_ALL_FLAGS := ["quest_done"] } }

/-- A well-formed add_item atom. -/
def addAtom (item : String) : Change :=
  Change.dict [("atom", PyVal.vStr "add_item"), ("item", PyVal.vStr item)]

/-- A well-formed remove_item atom. -/
def removeAtom (item : String) : Change :=
  Change.dict [("atom", PyVal.vStr "remove_item"), ("item", PyVal.vStr item)]

/-- A well-formed move_to atom. -/
def moveAtom (target : String) : Change :=
  Change.dict [("atom", PyVal.vStr "move_to"), ("target", PyVal.vStr target)]

/-- A well-formed set_flag atom. -/
def setFlagAtom (flag : String) : Change :=
  Change.dict [("atom", PyVal.vStr "set_flag"), ("flag", PyVal.vStr flag)]

/-- A well-formed hp_delta atom with an integer delta. -/
def hpDeltaAtom (d : Int) : Change :=
  Change.dict [("atom", PyVal.vStr "hp_delta"), ("delta", PyVal.vInt d)]

/-- A state carrying one sword. -/
def stateSword : GameState := { state0 with inventory := [PyVal.vStr "sword"] }

/-- A state holding the has_torch flag. -/
def stateTorch : GameState := { state0 with flags := [PyVal.vStr "has_torch"] }

/-- A state past the turn limit that also holds a lose flag and the win
flag of rules0. -/
def stateC4 : GameState :=
  { location := PyVal.vStr "start", hp := 10, inventory := [],
    flags := [PyVal.vStr "hp_zero", PyVal.vStr "quest_done"], turns := 25 }

/-- The rule set rules0 with an empty WIN_ALL_FLAGS list. -/
def rulesW : Rules :=
  { LOCKS := [], INVENTORY_LIMIT := 1,
    END_CONDITIONS :=
      { MAX_TURNS := 20, LOSE_ANY_FLAGS := ["hp_zero"], WIN_ALL_FLAGS := [] } }

/-- The result pair of applying add_item sword to state0 under rules0:
the aliased sub-collections make the two components agree. -/
def stAfterAdd : GameState := { state0 with inventory := [PyVal.vStr "sword"] }

/-- The result pair of applying hp_delta -15 to state0. -/
def pC5 : GameState × GameState :=
  ({ state0 with flags := [PyVal.vStr "hp_zero"] },
   { state0 with hp := 0, flags := [PyVal.vStr "hp_zero"] })

/-- The result pair of a blocked move of state0 into the cave. -/
def pC6a : GameState × GameState := (state0, state0)

/-- The result pair of a permitted move of stateTorch into the cave. -/
def pC6b : GameState × GameState := (stateTorch, { stateTorch with location := PyVal.vStr "cave" })

/-- The result pair of adding a sword and then a shield to state0 under
the limit-1 rules. -/
def stC7 : GameState × GameState :=
  ({ state0 with inventory := [PyVal.vStr "sword"] },
   { state0 with inventory := [PyVal.vStr "sword"] })

/-- The result pair of add sword then remove sword on state0. -/
def pC8 : GameState × GameState := (state0, state0)

/-- An atom is safe when it is not an hp_delta whose delta field
coerces with an exception: exactly the atoms on which the loop body
cannot raise. -/
def changeSafe (c : Change) : Bool :=
  match c with
  | Change.other => true
  | Change.dict fields =>
    if dictGet fields "atom" = PyVal.vStr "hp_delta" then
      (pyInt (dictGetD fields "delta" (PyVal.vInt 0))).isOk
    else true

@[simp] lemma moveStep_hp (r : Rules) (st : GameState) (t : PyVal) :
    (moveStep r st t).hp = st.hp := by
  unfold moveStep; split
  · split <;> rfl
  · rfl

@[simp] lemma moveStep_inventory (r : Rules) (st : GameState) (t : PyVal) :
    (moveStep r st t).inventory = st.inventory := by
  unfold moveStep; split
  · split <;> rfl
  · rfl

@[simp] lemma moveStep_flags (r : Rules) (st : GameState) (t : PyVal) :
    (moveStep r st t).flags = st.flags := by
  unfold moveStep; split
  · split <;> rfl
  · rfl

@[simp] lemma moveStep_turns (r : Rules) (st : GameState) (t : PyVal) :
    (moveStep r st t).turns = st.turns := by
  unfold moveStep; split
  · split <;> rfl
  · rfl

@[simp] lemma addStep_location (r : Rules) (st : GameState) (x : PyVal) :
    (addStep r st x).location = st.location := by
  unfold addStep; split
  · rfl
  · split <;> rfl

@[simp] lemma addStep_hp (r : Rules) (st : GameState) (x : PyVal) :
    (addStep r st x).hp = st.hp := by
  unfold addStep; split
  · rfl
  · split <;> rfl

@[simp] lemma addStep_flags (r : Rules) (st : GameState) (x : PyVal) :
    (addStep r st x).flags = st.flags := by
  unfold addStep; split
  · rfl
  · split <;> rfl

@[simp] lemma addStep_turns (r : Rules) (st : GameState) (x : PyVal) :
    (addStep r st x).turns = st.turns := by
  unfold addStep; split
  · rfl
  · split <;> rfl

@[simp] lemma removeStep_location (st : GameState) (x : PyVal) :
    (removeStep st x).location = st.location := by
  unfold removeStep; split <;> rfl

@[simp] lemma removeStep_hp (st : GameState) (x : PyVal) :
    (removeStep st x).hp = st.hp := by
  unfold removeStep; split <;> rfl

@[simp] lemma removeStep_flags (st : GameState) (x : PyVal) :
    (removeStep st x).flags = st.flags := by
  unfold removeStep; split <;> rfl

@[simp] lemma removeStep_turns (st : GameState) (x : PyVal) :
    (removeStep st x).turns = st.turns := by
  unfold removeStep; split <;> rfl

@[simp] lemma setFlagStep_location (st : GameState) (f : PyVal) :
    (setFlagStep st f).location = st.location := rfl

@[simp] lemma setFlagStep_hp (st : GameState) (f : PyVal) :
    (setFlagStep st f).hp = st.hp := rfl

@[simp] lemma setFlagStep_inventory (st : GameState) (f : PyVal) :
    (setFlagStep st f).inventory = st.inventory := rfl

@[simp] lemma setFlagStep_turns (st : GameState) (f : PyVal) :
    (setFlagStep st f).turns = st.turns := rfl

@[simp] lemma hpStep_location (st : GameState) (d : Int) :
    (hpStep st d).location = st.location := by
  simp only [hpStep]; split <;> rfl

@[simp] lemma hpStep_inventory (st : GameState) (d : Int) :
    (hpStep st d).inventory = st.inventory := by
  simp only [hpStep]; split <;> rfl

@[simp] lemma hpStep_turns (st : GameState) (d : Int) :
    (hpStep st d).turns = st.turns := by
  simp only [hpStep]; split <;> rfl

lemma hpStep_hp_nonneg_total (st : GameState) (d : Int) (h0 : 0 ≤ st.hp) :
    0 ≤ (hpStep st d).hp := by
  simp only [hpStep]; split
  · exact le_refl 0
  · next hlt =>
      show (0 : Int) ≤ st.hp + d
      omega

lemma removeFirst_sublist (l : List PyVal) (x : PyVal) : List.Sublist (removeFirst l x) l := by
  induction l with
  | nil => simp [removeFirst]
  | cons y ys ih =>
    unfold removeFirst
    split
    · exact List.sublist_cons_self y ys
    · exact List.Sublist.cons₂ y ih

lemma removeFirst_append_self (l : List PyVal) (x : PyVal) (h : x ∉ l) :
    removeFirst (l ++ [x]) x = l := by
  induction l with
  | nil => simp [removeFirst]
  | cons y ys ih =>
    have hy : ¬ y = x := fun hyx => h (by simp [hyx])
    have hx : x ∉ ys := fun hmem => h (by simp [hmem])
    simp only [List.cons_append]
    unfold removeFirst
    rw [if_neg hy, ih hx]

lemma applyChange_ok_of_safe (r : Rules) (st : GameState) (c : Change)
    (hsafe : changeSafe c = true) : ∃ st2, applyChange r st c = Except.ok st2 := by
  cases c with
  | other => exact ⟨st, rfl⟩
  | dict fields =>
    simp only [applyChange]
    split
    · exact ⟨_, rfl⟩
    · split
      · exact ⟨_, rfl⟩
      · split
        · exact ⟨_, rfl⟩
        · split
          · exact ⟨_, rfl⟩
          · split
            · next hhp =>
              simp only [changeSafe, hhp, if_pos] at hsafe
              cases hpi : pyInt (dictGetD fields "delta" (PyVal.vInt 0)) with
              | error e => rw [hpi] at hsafe; exact Bool.noConfusion hsafe
              | ok d => exact ⟨hpStep st d, rfl⟩
            · exact ⟨st, rfl⟩

lemma applyChange_turns (r : Rules) (st st2 : GameState) (c : Change)
    (h : applyChange r st c = Except.ok st2) : st2.turns = st.turns := by
  cases c with
  | other =>
    simp only [applyChange, Except.ok.injEq] at h
    subst h; rfl
  | dict fields =>
    simp only [applyChange] at h
    split at h
    · injection h with h2; subst h2; simp
    · split at h
      · injection h with h2; subst h2; simp
      · split at h
        · injection h with h2; subst h2; simp
        · split at h
          · injection h with h2; subst h2; simp
          · split at h
            · split at h
              · exact absurd h (by simp)
              · injection h with h2; subst h2; simp
            · injection h with h2; subst h2; rfl

lemma applyChange_ok_elim (r : Rules) (st st2 : GameState) (c : Change)
    (P : GameState → Prop)
    (h : applyChange r st c = Except.ok st2)
    (hother : P st)
    (hmove : ∀ t, P (moveStep r st t))
    (hadd : ∀ x, P (addStep r st x))
    (hremove : ∀ x, P (removeStep st x))
    (hflag : ∀ f, P (setFlagStep st f))
    (hhp : ∀ d, P (hpStep st d)) : P st2 := by
  cases c with
  | other =>
    simp only [applyChange, Except.ok.injEq] at h
    subst h; exact hother
  | dict fields =>
    simp only [applyChange] at h
    split at h
    · injection h with h2; subst h2; exact hmove _
    · split at h
      · injection h with h2; subst h2; exact hadd _
      · split at h
        · injection h with h2; subst h2; exact hremove _
        · split at h
          · injection h with h2; subst h2; exact hflag _
          · split at h
            · split at h
              · exact absurd h (by simp)
              · injection h with h2; subst h2; exact hhp _
            · injection h with h2; subst h2; exact hother

lemma applyChange_hp_nonneg (r : Rules) (st st2 : GameState) (c : Change)
    (h0 : 0 ≤ st.hp) (h : applyChange r st c = Except.ok st2) : 0 ≤ st2.hp := by
  refine applyChange_ok_elim r st st2 c (fun s => 0 ≤ s.hp) h h0 ?_ ?_ ?_ ?_ ?_
  · intro t; simpa using h0
  · intro x; simpa using h0
  · intro x; simpa using h0
  · intro f; simpa using h0
  · intro d; exact hpStep_hp_nonneg_total st d h0

lemma addStep_inv (r : Rules) (st : GameState) (x : PyVal)
    (hnd : st.inventory.Nodup) (hlen : st.inventory.length ≤ r.INVENTORY_LIMIT) :
    (addStep r st x).inventory.Nodup ∧
      (addStep r st x).inventory.length ≤ r.INVENTORY_LIMIT := by
  unfold addStep
  split
  · exact ⟨hnd, hlen⟩
  · split
    · exact ⟨hnd, hlen⟩
    · next hfull hmem =>
      constructor
      · rw [List.nodup_append]
        exact ⟨hnd, List.nodup_singleton x, by simpa using hmem⟩
      · simp only [List.length_append, List.length_singleton]
        omega

lemma removeStep_inv (r : Rules) (st : GameState) (x : PyVal)
    (hnd : st.inventory.Nodup) (hlen : st.inventory.length ≤ r.INVENTORY_LIMIT) :
    (removeStep st x).inventory.Nodup ∧
      (removeStep st x).inventory.length ≤ r.INVENTORY_LIMIT := by
  unfold removeStep
  split
  · constructor
    · exact List.Nodup.sublist (removeFirst_sublist st.inventory x) hnd
    · exact le_trans (List.Sublist.length_le (removeFirst_sublist st.inventory x)) hlen
  · exact ⟨hnd, hlen⟩

lemma applyChange_inv (r : Rules) (st st2 : GameState) (c : Change)
    (hnd : st.inventory.Nodup) (hlen : st.inventory.length ≤ r.INVENTORY_LIMIT)
    (h : applyChange r st c = Except.ok st2) :
    st2.inventory.Nodup ∧ st2.inventory.length ≤ r.INVENTORY_LIMIT := by
  refine applyChange_ok_elim r st st2 c
    (fun s => s.inventory.Nodup ∧ s.inventory.length ≤ r.INVENTORY_LIMIT)
    h ⟨hnd, hlen⟩ ?_ ?_ ?_ ?_ ?_
  · intro t; simpa using And.intro hnd hlen
  · intro x; exact addStep_inv r st x hnd hlen
  · intro x; exact removeStep_inv r st x hnd hlen
  · intro f; simpa using And.intro hnd hlen
  · intro d; simpa using And.intro hnd hlen

lemma applyChangesList_turns (r : Rules) (cs : List Change) (st st2 : GameState)
    (h : applyChangesList r st cs = Except.ok st2) : st2.turns = st.turns := by
  induction cs generalizing st with
  | nil =>
    simp only [applyChangesList, Except.ok.injEq] at h
    subst h; rfl
  | cons c cs ih =>
    simp only [applyChangesList] at h
    cases hac : applyChange r st c with
    | error e => rw [hac] at h; exact absurd h (by simp)
    | ok st1 =>
      rw [hac] at h
      exact (ih st1 h).trans (applyChange_turns r st st1 c hac)

lemma applyChangesList_hp_nonneg (r : Rules) (cs : List Change) (st st2 : GameState)
    (h0 : 0 ≤ st.hp) (h : applyChangesList r st cs = Except.ok st2) : 0 ≤ st2.hp := by
  induction cs generalizing st with
  | nil =>
    simp only [applyChangesList, Except.ok.injEq] at h
    subst h; exact h0
  | cons c cs ih =>
    simp only [applyChangesList] at h
    cases hac : applyChange r st c with
    | error e => rw [hac] at h; exact absurd h (by simp)
    | ok st1 =>
      rw [hac] at h
      exact ih st1 (applyChange_hp_nonneg r st st1 c h0 hac) h

lemma applyChangesList_inv (r : Rules) (cs : List Change) (st st2 : GameState)
    (hnd : st.inventory.Nodup) (hlen : st.inventory.length ≤ r.INVENTORY_LIMIT)
    (h : applyChangesList r st cs = Except.ok st2) :
    st2.inventory.Nodup ∧ st2.inventory.length ≤ r.INVENTORY_LIMIT := by
  induction cs generalizing st with
  | nil =>
    simp only [applyChangesList, Except.ok.injEq] at h
    subst h; exact ⟨hnd, hlen⟩
  | cons c cs ih =>
    simp only [applyChangesList] at h
    cases hac : applyChange r st c with
    | error e => rw [hac] at h; exact absurd h (by simp)
    | ok st1 =>
      rw [hac] at h
      obtain ⟨hnd1, hlen1⟩ := applyChange_inv r st st1 c hnd hlen hac
      exact ih st1 hnd1 hlen1 h

lemma applyChangesList_ok_of_safe (r : Rules) (cs : List Change) (st : GameState)
    (hsafe : ∀ c ∈ cs, changeSafe c = true) :
    ∃ st2, applyChangesList r st cs = Except.ok st2 := by
  induction cs generalizing st with
  | nil => exact ⟨st, rfl⟩
  | cons c cs ih =>
    obtain ⟨st1, hst1⟩ := applyChange_ok_of_safe r st c (hsafe c (by simp))
    obtain ⟨st2, hst2⟩ := ih st1 (fun d hd => hsafe d (by simp [hd]))
    exact ⟨st2, by simp only [applyChangesList]; rw [hst1]; exact hst2⟩

lemma applyChange_moveAtom (r : Rules) (st : GameState) (t : String) :
    applyChange r st (moveAtom t) = Except.ok (moveStep r st (PyVal.vStr t)) := rfl

lemma applyChange_addAtom (r : Rules) (st : GameState) (x : String) :
    applyChange r st (addAtom x) = Except.ok (addStep r st (PyVal.vStr x)) := rfl

lemma applyChange_removeAtom (r : Rules) (st : GameState) (x : String) :
    applyChange r st (removeAtom x) = Except.ok (removeStep st (PyVal.vStr x)) := rfl

lemma applyChange_hpDeltaAtom (r : Rules) (st : GameState) (d : Int) :
    applyChange r st (hpDeltaAtom d) = Except.ok (hpStep st d) := rfl

lemma apply_single (state : GameState) (rules : Rules) (c : Change) (st2 : GameState)
    (h : applyChange rules state c = Except.ok st2) :
    apply_state_changes state (Changes.list [c]) rules
      = Except.ok ({ state with inventory := st2.inventory, flags := st2.flags }, st2) := by
  simp only [apply_state_changes, applyChangesList]
  rw [h]

lemma apply_pair (state : GameState) (rules : Rules) (c1 c2 : Change) (st1 st2 : GameState)
    (h1 : applyChange rules state c1 = Except.ok st1)
    (h2 : applyChange rules st1 c2 = Except.ok st2) :
    apply_state_changes state (Changes.list [c1, c2]) rules
      = Except.ok ({ state with inventory := st2.inventory, flags := st2.flags }, st2) := by
  simp only [apply_state_changes, applyChangesList, h1, h2]

lemma mem_setFlagKey (flags : List PyVal) (k : PyVal) : k ∈ setFlagKey flags k := by
  unfold setFlagKey
  split
  · assumption
  · simp

lemma findLoseFlag_some (flags : List PyVal) (fs : List String)
    (h : ∃ f ∈ fs, PyVal.vStr f ∈ flags) :
    ∃ g, findLoseFlag flags fs = some g := by
  induction fs with
  | nil => simp at h
  | cons f fs ih =>
    by_cases hmem : PyVal.vStr f ∈ flags
    · exact ⟨f, by simp [findLoseFlag, hmem]⟩
    · obtain ⟨f0, hf0, hm0⟩ := h
      rcases List.mem_cons.mp hf0 with rfl | hf0t
      · exact absurd hm0 hmem
      · obtain ⟨g, hg⟩ := ih ⟨f0, hf0t, hm0⟩
        exact ⟨g, by simp [findLoseFlag, hmem, hg]⟩

lemma findLoseFlag_none (flags : List PyVal) (fs : List String)
    (h : ∀ f ∈ fs, PyVal.vStr f ∉ flags) : findLoseFlag flags fs = none := by
  induction fs with
  | nil => rfl
  | cons f fs ih =>
    simp only [findLoseFlag]
    rw [if_neg (h f (by simp))]
    exact ih (fun g hg => h g (by simp [hg]))

/-- C1 counterexample: the claim that apply_state_changes never raises
fails on an hp_delta atom whose delta field holds a non-numeric string;
int("abc") at line 136 raises ValueError and the call aborts. -/
theorem C1_counterexample :
    apply_state_changes state0
      (Changes.list [Change.dict [("atom", PyVal.vStr "hp_delta"), ("delta", PyVal.vStr "abc")]])
      rules0
      = Except.error "ValueError: invalid literal for int" := by rfl

/-- C1 (amended): apply_state_changes never raises provided every
hp_delta atom whose delta field is present carries an integer-coercible
value; under that proviso malformed items (non-dict atoms, unknown
kinds) are skipped and the remaining atoms processed, an absent delta
defaults to 0, and a non-sequence changes argument is a no-op returning
the original state. -/
theorem C1_amended (state : GameState) (rules : Rules) (items : List Change)
    (hsafe : ∀ c ∈ items, changeSafe c = true) :
    (∃ p, apply_state_changes state (Changes.list items) rules = Except.ok p) ∧
    apply_state_changes state Changes.notList rules = Except.ok (state, state) := by
  constructor
  · cases items with
    | nil => exact ⟨(state, state), rfl⟩
    | cons c cs =>
      obtain ⟨st2, hst2⟩ := applyChangesList_ok_of_safe rules (c :: cs) state hsafe
      exact ⟨({ state with inventory := st2.inventory, flags := st2.flags }, st2),
        by simp only [apply_state_changes, hst2]⟩
  · rfl

/-- C1 witness: a safe atom list (an hp_delta with integer delta, a
non-dict atom, an unknown kind) is processed without an exception. -/
theorem C1_witness :
    (∃ p, apply_state_changes state0
        (Changes.list [hpDeltaAtom (-15), Change.other, Change.dict [("atom", PyVal.vStr "fly")]])
        rules0 = Except.ok p) ∧
    apply_state_changes state0 Changes.notList rules0 = Except.ok (state0, state0) :=
  C1_amended state0 rules0
    [hpDeltaAtom (-15), Change.other, Change.dict [("atom", PyVal.vStr "fly")]] (by decide)

/-- C2 (code bug): when call_ollama returns None because the backend
response could not be parsed, main increments the turn counter and then
dereferences llm_response.get at line 271 without a None check, so the
turn crashes with AttributeError instead of continuing with zero atoms
applied. -/
theorem C2_crash :
    main_turn state0 LLMResult.failure rules0
      = Except.error "AttributeError: NoneType object has no attribute get" := rfl

/-- C3 counterexample: after applying a single add_item atom the caller
state (first component) has the new item in its inventory, so the claim
that the caller state is left equal to its pre-call value is false. -/
theorem C3_counterexample :
    (apply_state_changes state0 (Changes.list [addAtom "sword"]) rules0).map Prod.fst
      = Except.ok { state0 with inventory := [PyVal.vStr "sword"] }
    ∧ ({ state0 with inventory := [PyVal.vStr "sword"] } : GameState) ≠ state0 :=
  ⟨rfl, by decide⟩

/-- C3 (amended): apply_state_changes returns a new top-level state
record, so the caller state keeps its location, hp and turns fields;
but the inventory and flags sub-collections are aliased between the
caller state and the returned state, so after the call the caller
state carries the inventory and flags of the returned state. -/
theorem C3_amended (state : GameState) (changes : Changes) (rules : Rules)
    (caller ret : GameState)
    (h : apply_state_changes state changes rules = Except.ok (caller, ret)) :
    caller.location = state.location ∧ caller.hp = state.hp ∧ caller.turns = state.turns ∧
    caller.inventory = ret.inventory ∧ caller.flags = ret.flags ∧ ret.turns = state.turns := by
  cases changes with
  | notList =>
    simp only [apply_state_changes, Except.ok.injEq, Prod.mk.injEq] at h
    obtain ⟨h1, h2⟩ := h
    subst h1; subst h2
    exact ⟨rfl, rfl, rfl, rfl, rfl, rfl⟩
  | list items =>
    cases items with
    | nil =>
      simp only [apply_state_changes, Except.ok.injEq, Prod.mk.injEq] at h
      obtain ⟨h1, h2⟩ := h
      subst h1; subst h2
      exact ⟨rfl, rfl, rfl, rfl, rfl, rfl⟩
    | cons c cs =>
      simp only [apply_state_changes] at h
      cases hal : applyChangesList rules state (c :: cs) with
      | error e => rw [hal] at h; exact absurd h (by simp)
      | ok st2 =>
        rw [hal] at h
        simp only [Except.ok.injEq, Prod.mk.injEq] at h
        obtain ⟨h1, h2⟩ := h
        subst h1; subst h2
        exact ⟨rfl, rfl, rfl, rfl, rfl,
          applyChangesList_turns rules (c :: cs) state st2 hal⟩

/-- C3 witness: at the concrete add_item call the caller state keeps
its top-level fields and shares inventory and flags with the returned
state. -/
theorem C3_witness :
    stAfterAdd.location = state0.location ∧ stAfterAdd.hp = state0.hp ∧
    stAfterAdd.turns = state0.turns ∧ stAfterAdd.inventory = stAfterAdd.inventory ∧
    stAfterAdd.flags = stAfterAdd.flags ∧ stAfterAdd.turns = state0.turns :=
  C3_amended state0 (Changes.list [addAtom "sword"]) rules0 stAfterAdd stAfterAdd rfl

/-- C4: check_end_conditions resolves with the fixed precedence
turn-limit loss, then lose-flag loss, then win: a state past the turn
limit is reported lost whatever its flags, and a state holding any lose
flag is reported lost (never won) whatever win flags it also holds. -/
theorem C4_precedence (state : GameState) (rules : Rules) :
    (state.turns ≥ rules.END_CONDITIONS.MAX_TURNS →
      ∃ m, check_end_conditions state rules = GameResult.lose m) ∧
    ((∃ f ∈ rules.END_CONDITIONS.LOSE_ANY_FLAGS, PyVal.vStr f ∈ state.flags) →
      ∃ m, check_end_conditions state rules = GameResult.lose m) := by
  constructor
  · intro h
    refine ⟨"You ran out of time! (" ++ toString rules.END_CONDITIONS.MAX_TURNS ++ " turns)", ?_⟩
    simp only [check_end_conditions]
    rw [if_pos h]
  · intro hex
    by_cases ht : state.turns ≥ rules.END_CONDITIONS.MAX_TURNS
    · refine ⟨"You ran out of time! (" ++ toString rules.END_CONDITIONS.MAX_TURNS ++ " turns)", ?_⟩
      simp only [check_end_conditions]
      rw [if_pos ht]
    · obtain ⟨g, hg⟩ := findLoseFlag_some state.flags rules.END_CONDITIONS.LOSE_ANY_FLAGS hex
      refine ⟨"You have met a losing condition: " ++ g ++ "!", ?_⟩
      simp only [check_end_conditions]
      rw [if_neg ht, hg]

/-- C4 witness: the state stateC4 holds every win flag of rules0 yet is
reported lost, both past the turn limit and, with the counter reset,
through its lose flag. -/
theorem C4_witness :
    (∃ m, check_end_conditions stateC4 rules0 = GameResult.lose m) ∧
    (∃ m, check_end_conditions { stateC4 with turns := 0 } rules0 = GameResult.lose m) :=
  ⟨(C4_precedence stateC4 rules0).1 (by decide),
   (C4_precedence { stateC4 with turns := 0 } rules0).2 (by decide)⟩

/-- C5: on any atom list the returned state of apply_state_changes
keeps hp non-negative whenever the input hp was non-negative; and an
hp_delta atom that drives hp to zero or below leaves hp exactly 0 with
the reserved hp_zero flag set. -/
theorem C5_hp_invariant :
    (∀ (state : GameState) (rules : Rules) (items : List Change) (p : GameState × GameState),
      0 ≤ state.hp →
      apply_state_changes state (Changes.list items) rules = Except.ok p →
      0 ≤ p.2.hp) ∧
    (∀ (state : GameState) (rules : Rules) (delta : Int) (p : GameState × GameState),
      state.hp + delta ≤ 0 →
      apply_state_changes state (Changes.list [hpDeltaAtom delta]) rules = Except.ok p →
      p.2.hp = 0 ∧ PyVal.vStr "hp_zero" ∈ p.2.flags) := by
  constructor
  · intro state rules items p h0 h
    cases items with
    | nil =>
      simp only [apply_state_changes, Except.ok.injEq] at h
      subst h
      exact h0
    | cons c cs =>
      simp only [apply_state_changes] at h
      cases hal : applyChangesList rules state (c :: cs) with
      | error e => rw [hal] at h; exact absurd h (by simp)
      | ok st2 =>
        rw [hal] at h
        simp only [Except.ok.injEq] at h
        subst h
        exact applyChangesList_hp_nonneg rules (c :: cs) state st2 h0 hal
  · intro state rules delta p hle h
    rw [apply_single state rules (hpDeltaAtom delta) (hpStep state delta)
      (applyChange_hpDeltaAtom rules state delta)] at h
    simp only [Except.ok.injEq] at h
    subst h
    simp only [hpStep]
    rw [if_pos hle]
    exact ⟨rfl, mem_setFlagKey state.flags (PyVal.vStr "hp_zero")⟩

/-- C5 witness: hp 10 plus delta -15 clamps to exactly 0 and raises the
hp_zero flag, and the result stays non-negative. -/
theorem C5_witness :
    0 ≤ pC5.2.hp ∧ (pC5.2.hp = 0 ∧ PyVal.vStr "hp_zero" ∈ pC5.2.flags) :=
  ⟨C5_hp_invariant.1 state0 rules0 [hpDeltaAtom (-15)] pC5 (by decide) (by rfl),
   C5_hp_invariant.2 state0 rules0 (-15) pC5 (by decide) (by rfl)⟩

/-- C6: a move_to atom whose target is locked behind a flag the state
lacks leaves the returned location unchanged; when the required flag is
present, or the target is not locked at all, the returned location is
the target. -/
theorem C6_move_lock (state : GameState) (rules : Rules) (target : String)
    (p : GameState × GameState)
    (h : apply_state_changes state (Changes.list [moveAtom target]) rules = Except.ok p) :
    ((∃ f, strLookup rules.LOCKS target = some f ∧ PyVal.vStr f ∉ state.flags) →
      p.2.location = state.location) ∧
    ((∀ f, strLookup rules.LOCKS target = some f → PyVal.vStr f ∈ state.flags) →
      p.2.location = PyVal.vStr target) := by
  rw [apply_single state rules (moveAtom target) (moveStep rules state (PyVal.vStr target))
    (applyChange_moveAtom rules state target)] at h
  simp only [Except.ok.injEq] at h
  subst h
  constructor
  · intro ⟨f, hf, hnot⟩
    show (moveStep rules state (PyVal.vStr target)).location = state.location
    simp only [moveStep, lockLookup, hf]
    rw [if_neg hnot]
  · intro hall
    show (moveStep rules state (PyVal.vStr target)).location = PyVal.vStr target
    simp only [moveStep, lockLookup]
    cases hl : strLookup rules.LOCKS target with
    | none => rfl
    | some f =>
      dsimp only
      rw [if_pos (hall f hl)]

/-- C6 witness: without has_torch the move into the locked cave leaves
state0 at start; with has_torch present the move lands in the cave. -/
theorem C6_witness :
    pC6a.2.location = state0.location ∧ pC6b.2.location = PyVal.vStr "cave" :=
  ⟨(C6_move_lock state0 rules0 "cave" pC6a (by rfl)).1 ⟨"has_torch", rfl, by decide⟩,
   (C6_move_lock stateTorch rules0 "cave" pC6b (by rfl)).2 (fun f hf => by
      have hfeq : f = "has_torch" := by
        simpa [rules0, strLookup] using hf.symm
      subst hfeq
      decide)⟩

/-- C7: starting from a duplicate-free inventory within the limit, any
atom list leaves the returned inventory duplicate-free and within the
limit. -/
theorem C7_inventory_invariant (state : GameState) (rules : Rules) (items : List Change)
    (p : GameState × GameState)
    (hnd : state.inventory.Nodup)
    (hlen : state.inventory.length ≤ rules.INVENTORY_LIMIT)
    (h : apply_state_changes state (Changes.list items) rules = Except.ok p) :
    p.2.inventory.Nodup ∧ p.2.inventory.length ≤ rules.INVENTORY_LIMIT := by
  cases items with
  | nil =>
    simp only [apply_state_changes, Except.ok.injEq] at h
    subst h
    exact ⟨hnd, hlen⟩
  | cons c cs =>
    simp only [apply_state_changes] at h
    cases hal : applyChangesList rules state (c :: cs) with
    | error e => rw [hal] at h; exact absurd h (by simp)
    | ok st2 =>
      rw [hal] at h
      simp only [Except.ok.injEq] at h
      subst h
      exact applyChangesList_inv rules (c :: cs) state st2 hnd hlen hal

/-- C7 witness: adding a sword and then a shield under limit 1 keeps
the inventory duplicate-free and at most one item long. -/
theorem C7_witness :
    stC7.2.inventory.Nodup ∧ stC7.2.inventory.length ≤ rules0.INVENTORY_LIMIT :=
  C7_inventory_invariant state0 rules0 [addAtom "sword", addAtom "shield"] stC7
    (by decide) (by decide) (by rfl)

/-- C8 counterexample: with sword already held, add_item sword is
silently satisfied and remove_item sword then removes it, so the pair
is not a net no-op as the unconditional claim states. -/
theorem C8_counterexample :
    (apply_state_changes stateSword (Changes.list [addAtom "sword", removeAtom "sword"]) rules5).map
        (fun p => p.2.inventory)
      = Except.ok []
    ∧ ([] : List PyVal) ≠ stateSword.inventory :=
  ⟨by rfl, by decide⟩

/-- C8 (amended): atoms are applied strictly in order, and for an item
NOT already in an inventory strictly below the limit, add_item then
remove_item nets to the original inventory, while remove_item then
add_item nets to the item present exactly once. -/
theorem C8_amended (state : GameState) (rules : Rules) (x : String)
    (p q : GameState × GameState)
    (hlt : state.inventory.length < rules.INVENTORY_LIMIT)
    (habs : PyVal.vStr x ∉ state.inventory)
    (h1 : apply_state_changes state (Changes.list [addAtom x, removeAtom x]) rules = Except.ok p)
    (h2 : apply_state_changes state (Changes.list [removeAtom x, addAtom x]) rules = Except.ok q) :
    p.2.inventory = state.inventory ∧ q.2.inventory.count (PyVal.vStr x) = 1 := by
  have e1 : applyChange rules state (addAtom x)
      = Except.ok { state with inventory := state.inventory ++ [PyVal.vStr x] } := by
    rw [applyChange_addAtom]
    unfold addStep
    rw [if_neg (by omega), if_neg habs]
  have e2 : applyChange rules { state with inventory := state.inventory ++ [PyVal.vStr x] }
      (removeAtom x) = Except.ok state := by
    rw [applyChange_removeAtom]
    unfold removeStep
    rw [if_pos (by simp)]
    simp only [removeFirst_append_self state.inventory (PyVal.vStr x) habs]
  have e3 : applyChange rules state (removeAtom x) = Except.ok state := by
    rw [applyChange_removeAtom]
    unfold removeStep
    rw [if_neg habs]
  constructor
  · rw [apply_pair state rules (addAtom x) (removeAtom x)
      { state with inventory := state.inventory ++ [PyVal.vStr x] } state e1 e2] at h1
    simp only [Except.ok.injEq] at h1
    subst h1
    rfl
  · rw [apply_pair state rules (removeAtom x) (addAtom x) state
      { state with inventory := state.inventory ++ [PyVal.vStr x] } e3 e1] at h2
    simp only [Except.ok.injEq] at h2
    subst h2
    show (state.inventory ++ [PyVal.vStr x]).count (PyVal.vStr x) = 1
    rw [List.count_append, List.count_eq_zero.mpr habs]
    simp

/-- C8 witness: with an empty inventory, add sword then remove sword
restores the empty inventory, and remove sword then add sword leaves
exactly one sword. -/
theorem C8_witness :
    pC8.2.inventory = state0.inventory ∧ stC7.2.inventory.count (PyVal.vStr "sword") = 1 :=
  C8_amended state0 rules0 "sword" pC8 stC7 (by decide) (by decide) (by rfl) (by rfl)

/-- C9 counterexample: a set_flag atom lacking its flag field is NOT
skipped: the source stores flags[None] = True, so the returned flags
gained the None key and the state changed for that atom. -/
theorem C9_counterexample :
    (apply_state_changes state0 (Changes.list [Change.dict [("atom", PyVal.vStr "set_flag")]])
        rules0).map (fun p => p.2.flags)
      = Except.ok [PyVal.vNone]
    ∧ ([PyVal.vNone] : List PyVal) ≠ state0.flags :=
  ⟨by rfl, by decide⟩

/-- C9 (amended): an atom that is not a key/value mapping is skipped
with the state unchanged and the remaining atoms still processed, and
an atom of unrecognized kind is skipped; but an atom of recognized kind
lacking its required field is not skipped: the missing field reads as
None and the effect is applied with it (set_flag with no flag sets the
None flag, move_to with no target sets location to None). -/
theorem C9_amended (st : GameState) (rules : Rules) (rest : List Change) :
    apply_state_changes st (Changes.list (Change.other :: rest)) rules
        = apply_state_changes st (Changes.list rest) rules ∧
    applyChange rules st (Change.dict [("atom", PyVal.vStr "fly")]) = Except.ok st ∧
    applyChange rules st (Change.dict [("atom", PyVal.vStr "set_flag")])
        = Except.ok { st with flags := setFlagKey st.flags PyVal.vNone } ∧
    applyChange rules st (Change.dict [("atom", PyVal.vStr "move_to")])
        = Except.ok { st with location := PyVal.vNone } := by
  refine ⟨?_, rfl, rfl, rfl⟩
  cases rest with
  | nil => rfl
  | cons c cs => rfl

/-- C10: with an empty WIN_ALL_FLAGS collection the all-flags-present
test is vacuously true, so any state below the turn limit with no lose
flag set is reported won. -/
theorem C10_vacuous_win (state : GameState) (rules : Rules)
    (hwin : rules.END_CONDITIONS.WIN_ALL_FLAGS = [])
    (hturn : state.turns < rules.END_CONDITIONS.MAX_TURNS)
    (hlose : ∀ f ∈ rules.END_CONDITIONS.LOSE_ANY_FLAGS, PyVal.vStr f ∉ state.flags) :
    check_end_conditions state rules = GameResult.win "You have won the game! Congratulations!" := by
  simp only [check_end_conditions]
  rw [if_neg (not_le.mpr hturn), findLoseFlag_none state.flags _ hlose, hwin]
  simp

/-- C10 witness: under rulesW (no win flags required) the fresh state0
is immediately reported won. -/
theorem C10_witness :
    check_end_conditions state0 rulesW = GameResult.win "You have won the game! Congratulations!" :=
  C10_vacuous_win state0 rulesW rfl (by decide) (by decide)
